import Mathlib

/-
Verification of the core pipeline of a personal-finance CSV analyzer:
statement parsing with delimiter fallback, balance extraction from a
free-text line, inflow/outflow classification of transaction rows,
date-range filtering, and the derived aggregations (totals, per-payee
breakdown, daily rolling series, monthly and weekday totals, savings
progress).  Amounts are modelled as rationals, dates as year/month/day
records.
-/

namespace FinTrack

/-- Calendar date of a transaction row. -/
structure CalDate where
  y : Int
  m : Int
  d : Int
  deriving DecidableEq

/-- A parsed transaction row of the Overview page, after the strict
date conversion (every row carries a real date). -/
structure Tx where
  date : CalDate
  payee : String
  tranType : String
  amount : ℚ
  deriving DecidableEq

/-- Outflow-eligible transaction-type codes, from the source list
cash_outflow_trantypes. -/
def cash_outflow_trantypes : List String :=
  ["D/D", "INT", "DEBIT", "EFTPOS", "BILLPAY"]

/-- Inflow-eligible transaction-type codes, from the source list
cash_inflow_trantypes. -/
def cash_inflow_trantypes : List String :=
  ["CREDIT", "DEPOSIT", "INT", "TFR IN", "D/C"]

/-- Classification of a single transaction row. -/
inductive TxClass where
  | Outflow
  | Inflow
  | Neither
  deriving DecidableEq

/-- The classifier implicit in the source: the expense side keeps rows
whose Tran Type is in cash_outflow_trantypes and whose Amount is
negative, the income side keeps rows whose Tran Type is in
cash_inflow_trantypes and whose Amount is positive; everything else is
in neither sum. -/
def classify (t : Tx) : TxClass :=
  if t.tranType ∈ cash_outflow_trantypes ∧ t.amount < 0 then TxClass.Outflow
  else if t.tranType ∈ cash_inflow_trantypes ∧ 0 < t.amount then TxClass.Inflow
  else TxClass.Neither

/-- total_expenses: sum of amounts over outflow-type rows with negative
amount. -/
def total_expenses (rows : List Tx) : ℚ :=
  ((rows.filter (fun t =>
      decide (t.tranType ∈ cash_outflow_trantypes ∧ t.amount < 0))).map
    (fun t => t.amount)).sum

/-- total_income: sum of amounts over inflow-type rows with positive
amount. -/
def total_income (rows : List Tx) : ℚ :=
  ((rows.filter (fun t =>
      decide (t.tranType ∈ cash_inflow_trantypes ∧ 0 < t.amount))).map
    (fun t => t.amount)).sum

/-- State reported by the savings-progress block. -/
inductive ProgressState where
  | NoBalance
  | NoGoal
  | Progress (p : ℚ)
  deriving DecidableEq

/-- Savings progress: with no extracted balance the page reports that no
balance information is available; with a goal of at most 0 it asks for a
goal; otherwise it computes balance / goal * 100 clamped into [0, 100]. -/
def savings_progress (balance_value : Option ℚ) (savings_goal : ℚ) :
    ProgressState :=
  match balance_value with
  | none => ProgressState.NoBalance
  | some available_balance =>
      if 0 < savings_goal then
        ProgressState.Progress
          (min (max (available_balance / savings_goal * 100) 0) 100)
      else ProgressState.NoGoal

/-- Claim C1: a row is classified Outflow iff its type is in the
outflow-eligible set and its amount is strictly negative, Inflow iff its
type is in the inflow-eligible set and its amount is strictly positive,
and Neither otherwise; a zero-amount row is Neither regardless of type,
and an INT row is classified by sign alone. -/
theorem c1_classifier (t : Tx) :
    (classify t = TxClass.Outflow ↔
      t.tranType ∈ cash_outflow_trantypes ∧ t.amount < 0)
    ∧ (classify t = TxClass.Inflow ↔
      t.tranType ∈ cash_inflow_trantypes ∧ 0 < t.amount)
    ∧ (t.amount = 0 → classify t = TxClass.Neither)
    ∧ (t.tranType = "INT" →
        (t.amount < 0 → classify t = TxClass.Outflow)
        ∧ (0 < t.amount → classify t = TxClass.Inflow)
        ∧ (t.amount = 0 → classify t = TxClass.Neither)) := by
  unfold classify
  split_ifs with h1 h2
  · refine ⟨by simp [h1], ?_, ?_, ?_⟩
    · constructor
      · intro h; cases h
      · intro h; exact absurd h.2 (not_lt.mpr (le_of_lt h1.2))
    · intro h0; exact absurd h0 (ne_of_lt h1.2)
    · intro _
      exact ⟨fun _ => rfl, fun hp => absurd hp (not_lt.mpr (le_of_lt h1.2)),
        fun h0 => absurd h0 (ne_of_lt h1.2)⟩
  · refine ⟨by simp [h1], by simp [h2], ?_, ?_⟩
    · intro h0; exact absurd (h0 ▸ h2.2) (lt_irrefl 0)
    · intro hint
      refine ⟨fun hneg => absurd ⟨by rw [hint]; decide, hneg⟩ h1,
        fun _ => rfl, fun h0 => absurd (h0 ▸ h2.2) (lt_irrefl 0)⟩
  · refine ⟨by simp [h1], by simp [h2], fun _ => rfl, ?_⟩
    intro hint
    refine ⟨fun hneg => absurd ⟨by rw [hint]; decide, hneg⟩ h1,
      fun hpos => absurd ⟨by rw [hint]; decide, hpos⟩ h2,
      fun _ => rfl⟩

/-- A concrete INT row with negative amount. -/
def txINTneg : Tx := ⟨⟨2024, 1, 1⟩, "BANK", "INT", -5⟩

/-- A concrete DEBIT row with amount exactly 0. -/
def txZero : Tx := ⟨⟨2024, 1, 1⟩, "SHOP", "DEBIT", 0⟩

/-- Witness for C1: a negative INT row is Outflow and a zero-amount
DEBIT row is Neither. -/
theorem c1_classifier_witness :
    classify txINTneg = TxClass.Outflow ∧ classify txZero = TxClass.Neither := by
  exact ⟨((c1_classifier txINTneg).2.2.2 rfl).1 (by decide),
    (c1_classifier txZero).2.2.1 rfl⟩

/-- Claim C2: for every balance and every goal strictly greater than 0
the computed progress is clamp(balance / goal * 100, 0, 100), hence in
[0, 100]; for every goal at most 0 (including exactly 0) the result is
the NoGoal state, so a zero goal never reaches the division. -/
theorem c2_savings_progress (b g : ℚ) :
    (0 < g →
      savings_progress (some b) g =
        ProgressState.Progress (min (max (b / g * 100) 0) 100)
      ∧ ∀ p, savings_progress (some b) g = ProgressState.Progress p →
          0 ≤ p ∧ p ≤ 100)
    ∧ (g ≤ 0 → savings_progress (some b) g = ProgressState.NoGoal) := by
  constructor
  · intro hg
    have heq : savings_progress (some b) g =
        ProgressState.Progress (min (max (b / g * 100) 0) 100) := by
      simp [savings_progress, hg]
    refine ⟨heq, fun p hp => ?_⟩
    rw [heq] at hp
    have hpe : p = min (max (b / g * 100) 0) 100 :=
      (ProgressState.Progress.injEq _ _).mp hp.symm
    subst hpe
    exact ⟨le_min (le_max_right _ _) (by norm_num), min_le_right _ _⟩
  · intro hg
    simp [savings_progress, not_lt.mpr hg]

/-- Witness for C2: balance 50 against goal 200 gives 25 percent, and a
goal of exactly 0 with balance 500 gives the NoGoal state. -/
theorem c2_savings_progress_witness :
    savings_progress (some 50) 200 = ProgressState.Progress 25
    ∧ savings_progress (some 500) 0 = ProgressState.NoGoal := by
  refine ⟨?_, (c2_savings_progress 500 0).2 le_rfl⟩
  rw [((c2_savings_progress 50 200).1 (by norm_num)).1]
  norm_num

/-- Days since 1970-01-01 of a civil date (the standard civil-calendar
day count); used to order dates chronologically and to compute the
weekday name, mirroring the timestamp comparisons and dt.day_name of the
dataframe library. -/
def epochDay (dt : CalDate) : Int :=
  let y : Int := if dt.m ≤ 2 then dt.y - 1 else dt.y
  let era : Int := y / 400
  let yoe : Int := y - era * 400
  let mp : Int := (dt.m + 9) % 12
  let doy : Int := (153 * mp + 2) / 5 + dt.d - 1
  let doe : Int := yoe * 365 + yoe / 4 - yoe / 100 + doy
  era * 146097 + doe - 719468

/-- Chronological order on dates, as the timestamp comparison of the
dataframe library. -/
def dateLE (a b : CalDate) : Bool :=
  decide (epochDay a ≤ epochDay b)

/-- df_filtered: keep the rows whose date lies between date1 and date2,
both inclusive. -/
def df_filtered (rows : List Tx) (date1 date2 : CalDate) : List Tx :=
  rows.filter (fun t => dateLE date1 t.date && dateLE t.date date2)

/-- Claim C9: the date-range filter keeps exactly the transactions whose
date is inside the window, both bounds inclusive, and it is idempotent:
filtering an already-filtered list with the same window is the
identity. -/
theorem c9_date_filter (rows : List Tx) (date1 date2 : CalDate) :
    (∀ t, t ∈ df_filtered rows date1 date2 ↔
      t ∈ rows ∧ epochDay date1 ≤ epochDay t.date
        ∧ epochDay t.date ≤ epochDay date2)
    ∧ df_filtered (df_filtered rows date1 date2) date1 date2 =
        df_filtered rows date1 date2 := by
  constructor
  · intro t
    simp [df_filtered, List.mem_filter, dateLE, and_assoc]
  · rw [df_filtered, df_filtered, List.filter_filter]
    congr 1
    funext t
    cases h : (dateLE date1 t.date && dateLE t.date date2) <;> simp [h]

/-- A raw row as read from the delimited body, before date conversion:
the Date cell is still text. -/
structure RawTx where
  date : String
  payee : String
  tranType : String
  amount : ℚ
  deriving DecidableEq

/-- The delimiters the fallback loop tries, in order (the source loop
is for delimiter in [",", ";", "\t"]). -/
def fallbackDelims : List Char := [',', ';', '\t']

/-- The fallback loop: try reading with each delimiter in turn, stopping
at the first success; also returns the list of delimiters attempted (one
warning is emitted per failed attempt, so the attempts are
observable). -/
def tryDelims (read_csv : Char → Option (List RawTx)) :
    List Char → Option (List RawTx) × List Char
  | [] => (none, [])
  | d :: ds =>
      match read_csv d with
      | some t => (some t, [d])
      | none =>
          let r := tryDelims read_csv ds
          (r.1, d :: r.2)

/-- The whole table read: a plain comma read first; on its failure the
fallback loop over fallbackDelims; if every attempt fails the table is
None.  The second component is the list of delimiters the fallback loop
attempted. -/
def readStatement (read_csv : Char → Option (List RawTx)) :
    Option (List RawTx) × List Char :=
  match read_csv ',' with
  | some t => (some t, [])
  | none => tryDelims read_csv fallbackDelims

/-- Modelled from the spec, for comparison: the claim says the retries
are exactly semicolon then tab. -/
def specRetryDelims : List Char := [';', '\t']

/-- Modelled from the spec, for comparison: read with comma, then retry
only with specRetryDelims. -/
def specReadStatement (read_csv : Char → Option (List RawTx)) :
    Option (List RawTx) × List Char :=
  match read_csv ',' with
  | some t => (some t, [])
  | none => tryDelims read_csv specRetryDelims

/-- Counterexample to C7: when every attempt fails, the fallback loop of
the code attempts comma, semicolon, tab (three warnings, comma retried),
not exactly semicolon then tab as the claim states. -/
theorem c7_counterexample :
    (readStatement (fun _ => none)).2 = [',', ';', '\t']
    ∧ (specReadStatement (fun _ => none)).2 = [';', '\t']
    ∧ (readStatement (fun _ => none)).2 ≠
        (specReadStatement (fun _ => none)).2 := by
  exact ⟨rfl, rfl, by decide⟩

/-- Claim C7 as amended: on a comma-parse failure the fallback loop
retries with comma again, then semicolon, then tab, in that fixed order,
stopping at the first success; the redundant comma retry fails again
(parsing is deterministic), so the produced table is exactly the one the
spec's semicolon-then-tab retry order would produce; and when every
attempt fails, no transactions are produced. -/
theorem c7_delimiter_fallback (read_csv : Char → Option (List RawTx)) :
    (∀ t, read_csv ',' = some t → readStatement read_csv = (some t, []))
    ∧ (read_csv ',' = none →
        (∀ t, read_csv ';' = some t →
          readStatement read_csv = (some t, [',', ';']))
        ∧ (read_csv ';' = none → ∀ t, read_csv '\t' = some t →
          readStatement read_csv = (some t, [',', ';', '\t']))
        ∧ (read_csv ';' = none → read_csv '\t' = none →
          readStatement read_csv = (none, [',', ';', '\t'])))
    ∧ (readStatement read_csv).1 = (specReadStatement read_csv).1 := by
  refine ⟨?_, ?_, ?_⟩
  · intro t h
    simp [readStatement, h]
  · intro hc
    refine ⟨?_, ?_, ?_⟩
    · intro t h
      simp [readStatement, tryDelims, fallbackDelims, hc, h]
    · intro hs t h
      simp [readStatement, tryDelims, fallbackDelims, hc, hs, h]
    · intro hs ht
      simp [readStatement, tryDelims, fallbackDelims, hc, hs, ht]
  · cases hc : read_csv ',' with
    | some t => simp [readStatement, specReadStatement, hc]
    | none =>
        simp [readStatement, specReadStatement, tryDelims, fallbackDelims,
          specRetryDelims, hc]

/-- A concrete reader that fails with comma and succeeds with
semicolon. -/
def readSemiOnly : Char → Option (List RawTx) :=
  fun c => if c = ';' then some [] else none

/-- Witness for the amended C7: with a reader that only the semicolon
satisfies, the code stops after the comma retry and the semicolon
attempt, with the same table as the spec's retry order. -/
theorem c7_delimiter_fallback_witness :
    readStatement readSemiOnly = (some [], [',', ';'])
    ∧ (readStatement readSemiOnly).1 = (specReadStatement readSemiOnly).1 := by
  refine ⟨?_, (c7_delimiter_fallback readSemiOnly).2.2⟩
  exact ((c7_delimiter_fallback readSemiOnly).2.1 (by decide)).1 [] (by decide)

/-- One text line, as its list of characters. -/
abbrev Line := List Char

/-- The characters of a string literal. -/
def chars (s : String) : Line := s.data

/-- Python substring membership (pat in l). -/
def strContains (l pat : Line) : Bool :=
  match l with
  | [] => pat.isEmpty
  | c :: t => pat.isPrefixOf (c :: t) || strContains t pat

/-- Python str.find: character index of the first occurrence of pat, or
-1 when pat does not occur. -/
def pyFind (l pat : Line) : Int :=
  match l with
  | [] => if pat.isEmpty then 0 else -1
  | c :: t =>
      if pat.isPrefixOf (c :: t) then 0
      else
        let r := pyFind t pat
        if r = -1 then -1 else r + 1

/-- Python slice l[:n], with the python meaning of a negative n (count
from the end, clamped at 0). -/
def pySliceTo (l : Line) (n : Int) : Line :=
  if 0 ≤ n then l.take n.toNat else l.take (l.length - (-n).toNat)

/-- Python str.split on a single character. -/
def pySplit (c : Char) : Line → List Line
  | [] => [[]]
  | a :: t =>
      let r := pySplit c t
      if a = c then [] :: r
      else
        match r with
        | [] => [[a]]
        | h :: rest => (a :: h) :: rest

/-- Python str.strip whitespace test. -/
def isSpaceChar (c : Char) : Bool :=
  c = ' ' || c = '\t' || c = '\n' || c = '\r'

/-- Python str.strip: drop whitespace from both ends. -/
def pyStrip (l : Line) : Line :=
  ((l.dropWhile isSpaceChar).reverse.dropWhile isSpaceChar).reverse

/-- The balance-extraction loop of the source: scan the lines for the
first one containing "Avail Bal"; slice that line at find(" as of")
(python slicing, so a missing marker gives -1 and removes the final
character); split the slice on ":" and take element 1 — an IndexError,
modelled as Except.error, when the split has fewer than two pieces — and
strip it.  Later lines are not examined (break).  The whole loop runs
inside the page's try block, so the error is caught by the surrounding
handler. -/
def extractBalance : List Line → Except Unit (Option Line)
  | [] => Except.ok none
  | line :: rest =>
      if strContains line (chars "Avail Bal") then
        match (pySplit ':'
            (pySliceTo line (pyFind line (chars " as of")))).get? 1 with
        | some s => Except.ok (some (pyStrip s))
        | none => Except.error ()
      else extractBalance rest

/-- Counterexample to C4: a line holding "Avail Bal" but no colon makes
the step raise an IndexError (the claim says no error is raised), and a
line holding "Avail Bal" and a colon but no " as of" marker still yields
a balance text — with its final character sliced off — where the claim
says the step yields no balance fact. -/
theorem c4_counterexample :
    extractBalance [chars "Avail Bal is 5 as of today"] = Except.error ()
    ∧ extractBalance [chars "Avail Bal: $12"] =
        Except.ok (some (chars "$1")) := by
  constructor
  · rfl
  · rfl

/-- Claim C4 as amended: if no line contains "Avail Bal" the step yields
no balance fact and no error; on the first line that does, the line is
sliced at find(" as of") — when the marker is absent the slice index is
-1, which removes the final character instead of skipping the line — the
slice is split on ":", and the piece between the first and second ":" is
stripped to give the balance text; when the slice contains no ":" the
step raises an IndexError (caught by the surrounding try block, which
then abandons the primary comma read). -/
theorem c4_balance_extraction (line : Line) (rest lines : List Line) :
    ((∀ l ∈ lines, strContains l (chars "Avail Bal") = false) →
      extractBalance lines = Except.ok none)
    ∧ (strContains line (chars "Avail Bal") = true →
        (∀ seg, (pySplit ':'
            (pySliceTo line (pyFind line (chars " as of")))).get? 1 =
              some seg →
          extractBalance (line :: rest) = Except.ok (some (pyStrip seg)))
        ∧ ((pySplit ':'
            (pySliceTo line (pyFind line (chars " as of")))).length ≤ 1 →
          extractBalance (line :: rest) = Except.error ()))
    ∧ (pyFind line (chars " as of") = -1 →
        pySliceTo line (pyFind line (chars " as of")) =
          line.take (line.length - 1)) := by
  refine ⟨?_, ?_, ?_⟩
  · intro h
    induction lines with
    | nil => rfl
    | cons l ls ih =>
        have hl := h l (List.mem_cons_self l ls)
        rw [extractBalance, hl]
        · exact ih fun x hx => h x (List.mem_cons_of_mem l hx)
  · intro hc
    constructor
    · intro seg hseg
      rw [extractBalance, if_pos hc, hseg]
    · intro hlen
      have hnone : (pySplit ':'
          (pySliceTo line (pyFind line (chars " as of")))).get? 1 = none :=
        List.get?_eq_none.mpr hlen
      rw [extractBalance, if_pos hc, hnone]
  · intro hf
    rw [hf]
    simp [pySliceTo]

/-- The spec's scenario line for balance extraction. -/
def availBalLine : Line := chars "Avail Bal: $1,234.56 as of 2024-01-01"

/-- Witness for the amended C4: the scenario line yields the balance
text between the colon and the marker, and a file with no Avail Bal line
yields no balance fact. -/
theorem c4_balance_extraction_witness :
    extractBalance [availBalLine] = Except.ok (some (chars "$1,234.56"))
    ∧ extractBalance [chars "Date,Amount"] = Except.ok none := by
  constructor
  · exact ((c4_balance_extraction availBalLine [] []).2.1 (by decide)).1
      (chars " $1,234.56") (by decide)
  · exact (c4_balance_extraction [] [] [chars "Date,Amount"]).1 (by decide)

/-- A row of the coercing path (Spending Analysis): the date is null
(NaT) when its text failed to parse. -/
structure CTx where
  date : Option CalDate
  payee : String
  tranType : String
  amount : ℚ
  deriving DecidableEq

/-- The strict date conversion of the Overview page: converting the Date
column raises on the first row whose date text does not parse, aborting
the whole conversion (the call sits outside any handler).  The external
date parser is the parameter parse. -/
def toDatetimeStrict (parse : String → Option CalDate) :
    List RawTx → Except Unit (List Tx)
  | [] => Except.ok []
  | r :: rs =>
      match parse r.date with
      | none => Except.error ()
      | some d =>
          match toDatetimeStrict parse rs with
          | Except.error e => Except.error e
          | Except.ok ts =>
              Except.ok (⟨d, r.payee, r.tranType, r.amount⟩ :: ts)

/-- The coercing date conversion of the Spending Analysis page
(errors coerce): a date that fails to parse becomes null and the row is
kept. -/
def toDatetimeCoerce (parse : String → Option CalDate) (rows : List RawTx) :
    List CTx :=
  rows.map fun r => ⟨parse r.date, r.payee, r.tranType, r.amount⟩

/-- A concrete date parser recognizing exactly one date text. -/
def parseJan2 : String → Option CalDate :=
  fun s => if s = "2024-01-02" then some ⟨2024, 1, 2⟩ else none

/-- A raw row whose date text parses under parseJan2. -/
def rawGood : RawTx := ⟨"2024-01-02", "SHOP", "DEBIT", -5⟩

/-- A raw row whose date text does not parse under parseJan2. -/
def rawBad : RawTx := ⟨"garbage", "SHOP", "DEBIT", -5⟩

/-- Counterexample to C6: on a table with one bad date row, the Overview
path raises (the claim says a per-row failure is never fatal), and the
Spending path keeps both rows (the claim says the bad row is dropped and
a dropped count reported; nothing is dropped and no count exists). -/
theorem c6_counterexample :
    toDatetimeStrict parseJan2 [rawGood, rawBad] = Except.error ()
    ∧ (toDatetimeCoerce parseJan2 [rawGood, rawBad]).length = 2 := by
  exact ⟨rfl, rfl⟩

/-- Claim C6 as amended: in the Overview path any row whose date fails
to parse makes the whole conversion raise, which is fatal to that
table's processing; when every date parses the conversion succeeds
keeping every row; in the Spending path rows are never dropped — a
failing date is coerced to null and the row retained — and no
dropped-row count is reported in either path (no such count exists in
the code). -/
theorem c6_date_parse_failures (parse : String → Option CalDate)
    (rows : List RawTx) :
    ((∃ r ∈ rows, parse r.date = none) →
      toDatetimeStrict parse rows = Except.error ())
    ∧ ((∀ r ∈ rows, (parse r.date).isSome) →
      ∃ ts, toDatetimeStrict parse rows = Except.ok ts
        ∧ ts.length = rows.length)
    ∧ (toDatetimeCoerce parse rows).length = rows.length := by
  refine ⟨?_, ?_, by simp [toDatetimeCoerce]⟩
  · intro h
    induction rows with
    | nil => simp at h
    | cons r rs ih =>
        rw [toDatetimeStrict]
        rcases h with ⟨x, hx, hpx⟩
        rcases List.mem_cons.mp hx with hhead | htail
        · rw [hhead] at hpx
          rw [hpx]
        · cases hp : parse r.date with
          | none => rfl
          | some d => rw [ih ⟨x, htail, hpx⟩]
  · intro h
    induction rows with
    | nil => exact ⟨[], rfl, rfl⟩
    | cons r rs ih =>
        have hr := h r (List.mem_cons_self r rs)
        rcases Option.isSome_iff_exists.mp hr with ⟨d, hd⟩
        rcases ih (fun x hx => h x (List.mem_cons_of_mem r hx)) with
          ⟨ts, hts, hlen⟩
        refine ⟨⟨d, r.payee, r.tranType, r.amount⟩ :: ts, ?_, by simp [hlen]⟩
        rw [toDatetimeStrict, hd, hts]

/-- Witness for the amended C6: a one-bad-row table raises in the strict
path, an all-good table succeeds, and the coercing path keeps both rows
of the mixed table. -/
theorem c6_date_parse_failures_witness :
    toDatetimeStrict parseJan2 [rawBad] = Except.error ()
    ∧ (∃ ts, toDatetimeStrict parseJan2 [rawGood] = Except.ok ts
        ∧ ts.length = 1)
    ∧ (toDatetimeCoerce parseJan2 [rawBad, rawGood]).length = 2 := by
  exact ⟨(c6_date_parse_failures parseJan2 [rawBad]).1
      ⟨rawBad, List.mem_singleton.mpr rfl, by decide⟩,
    (c6_date_parse_failures parseJan2 [rawGood]).2.1
      (by intro r hr; rw [List.mem_singleton.mp hr]; decide),
    (c6_date_parse_failures parseJan2 [rawBad, rawGood]).2.2⟩

/-- NaT semantics of the filter: a comparison of a null date against a
bound is false. -/
def cDateGE (od : Option CalDate) (s : CalDate) : Bool :=
  match od with
  | none => false
  | some d => dateLE s d

/-- NaT semantics of the filter, upper bound side. -/
def cDateLE (od : Option CalDate) (e : CalDate) : Bool :=
  match od with
  | none => false
  | some d => dateLE d e

/-- df_filtered of the Spending Analysis page, over coerced rows. -/
def df_filteredC (rows : List CTx) (date1 date2 : CalDate) : List CTx :=
  rows.filter fun t => cDateGE t.date date1 && cDateLE t.date date2

/-- df_outflow of the Spending Analysis page: the rows of the filtered
table whose Tran Type is outflow-eligible (the amount sign is not
consulted here). -/
def df_outflowC (rows : List CTx) : List CTx :=
  rows.filter fun t => decide (t.tranType ∈ cash_outflow_trantypes)

/-- total_expenses of the Spending Analysis page. -/
def total_expensesC (rows : List CTx) : ℚ :=
  (((df_outflowC rows).filter fun t => decide (t.amount < 0)).map
    fun t => t.amount).sum

/-- month_order, the canonical calendar order used to reorder the
grouped months. -/
def month_order : List String :=
  ["January", "February", "March", "April", "May", "June", "July",
   "August", "September", "October", "November", "December"]

/-- days_order, the canonical weekday order used to reorder the grouped
weekdays. -/
def days_order : List String :=
  ["Monday", "Tuesday", "Wednesday", "Thursday", "Friday", "Saturday",
   "Sunday"]

/-- dt.month_name of a coerced date; a null date gets no month name (its
group would be dropped by the grouping). -/
def month_nameC (od : Option CalDate) : String :=
  match od with
  | none => ""
  | some d =>
      if 1 ≤ d.m ∧ d.m ≤ 12 then month_order.getD (d.m - 1).toNat "" else ""

/-- dt.day_name of a coerced date, from the day count of the civil
calendar (1970-01-01 was a Thursday). -/
def day_nameC (od : Option CalDate) : String :=
  match od with
  | none => ""
  | some d => days_order.getD ((epochDay d + 3) % 7).toNat ""

/-- monthly_spending: group the outflow-type rows of the filtered table
by month name and sum the Amount per group; reorder the groups by the
canonical month_order (months without data are absent, not zero-filled);
finally replace each grouped sum by its absolute value (the source
applies abs to the sums, after grouping). -/
def monthly_spending (rows : List CTx) : List (String × ℚ) :=
  (month_order.filter fun mo =>
      (df_outflowC rows).any fun t => month_nameC t.date == mo).map
    fun mo => (mo,
      |(((df_outflowC rows).filter fun t =>
          month_nameC t.date == mo).map fun t => t.amount).sum|)

/-- weekly_spending: the same grouping by weekday name, ordered by
days_order. -/
def weekly_spending (rows : List CTx) : List (String × ℚ) :=
  (days_order.filter fun dn =>
      (df_outflowC rows).any fun t => day_nameC t.date == dn).map
    fun dn => (dn,
      |(((df_outflowC rows).filter fun t =>
          day_nameC t.date == dn).map fun t => t.amount).sum|)

/-- Claim C10: in the coercing parse path a row whose date fails to
parse is retained with a null date, is excluded by every date window
(null comparisons are false on both bounds), and therefore contributes
nothing to total expenses, monthly totals or weekday totals; no
dropped-row count is reported (none exists: the conversion keeps every
row and counts nothing). -/
theorem c10_coerced_null_dates (parse : String → Option CalDate)
    (r : RawTx) (rows : List RawTx) (date1 date2 : CalDate) :
    (toDatetimeCoerce parse rows).length = rows.length
    ∧ (∀ t ∈ df_filteredC (toDatetimeCoerce parse rows) date1 date2,
        t.date ≠ none)
    ∧ (parse r.date = none →
        df_filteredC (toDatetimeCoerce parse (r :: rows)) date1 date2 =
          df_filteredC (toDatetimeCoerce parse rows) date1 date2
        ∧ total_expensesC
            (df_filteredC (toDatetimeCoerce parse (r :: rows)) date1 date2) =
          total_expensesC
            (df_filteredC (toDatetimeCoerce parse rows) date1 date2)
        ∧ monthly_spending
            (df_filteredC (toDatetimeCoerce parse (r :: rows)) date1 date2) =
          monthly_spending
            (df_filteredC (toDatetimeCoerce parse rows) date1 date2)
        ∧ weekly_spending
            (df_filteredC (toDatetimeCoerce parse (r :: rows)) date1 date2) =
          weekly_spending
            (df_filteredC (toDatetimeCoerce parse rows) date1 date2)) := by
  have hfil : parse r.date = none →
      df_filteredC (toDatetimeCoerce parse (r :: rows)) date1 date2 =
        df_filteredC (toDatetimeCoerce parse rows) date1 date2 := by
    intro hp
    simp only [toDatetimeCoerce, List.map_cons, df_filteredC, List.filter_cons,
      hp]
    rfl
  refine ⟨by simp [toDatetimeCoerce], ?_, fun hp =>
    ⟨hfil hp, by rw [hfil hp], by rw [hfil hp], by rw [hfil hp]⟩⟩
  intro t ht hnone
  have := List.of_mem_filter ht
  rw [hnone] at this
  simp [cDateGE, cDateLE] at this

/-- Witness for C10: with the one-date parser, prepending the bad row to
the good row changes neither the filtered table nor the total
expenses. -/
theorem c10_coerced_null_dates_witness :
    df_filteredC (toDatetimeCoerce parseJan2 [rawBad, rawGood])
        ⟨2024, 1, 1⟩ ⟨2024, 12, 31⟩ =
      df_filteredC (toDatetimeCoerce parseJan2 [rawGood])
        ⟨2024, 1, 1⟩ ⟨2024, 12, 31⟩
    ∧ total_expensesC (df_filteredC (toDatetimeCoerce parseJan2
        [rawBad, rawGood]) ⟨2024, 1, 1⟩ ⟨2024, 12, 31⟩) =
      total_expensesC (df_filteredC (toDatetimeCoerce parseJan2 [rawGood])
        ⟨2024, 1, 1⟩ ⟨2024, 12, 31⟩) := by
  have h := (c10_coerced_null_dates parseJan2 rawBad [rawGood]
      ⟨2024, 1, 1⟩ ⟨2024, 12, 31⟩).2.2 (by decide)
  exact ⟨h.1, h.2.1⟩

/-- First-occurrence deduplication, with an accumulator of the values
already seen.  The key order of a groupby is not relevant to the claims;
only the key set and the per-key sums are. -/
def firstDedupAux {α : Type} [DecidableEq α] : List α → List α → List α
  | _, [] => []
  | seen, a :: l =>
      if a ∈ seen then firstDedupAux seen l
      else a :: firstDedupAux (a :: seen) l

/-- First-occurrence deduplication of a list (drop_duplicates keeps the
first occurrence). -/
def firstDedup {α : Type} [DecidableEq α] (l : List α) : List α :=
  firstDedupAux [] l

theorem mem_firstDedupAux {α : Type} [DecidableEq α] (x : α) :
    ∀ (l seen : List α), x ∈ firstDedupAux seen l ↔ x ∈ l ∧ x ∉ seen := by
  intro l
  induction l with
  | nil => intro seen; simp [firstDedupAux]
  | cons a t ih =>
      intro seen
      rw [firstDedupAux]
      by_cases ha : a ∈ seen
      · rw [if_pos ha, ih seen]
        constructor
        · rintro ⟨hx, hs⟩
          exact ⟨List.mem_cons_of_mem a hx, hs⟩
        · rintro ⟨hx, hs⟩
          rcases List.mem_cons.mp hx with h | h
          · exact absurd (h ▸ ha) hs
          · exact ⟨h, hs⟩
      · rw [if_neg ha]
        constructor
        · intro hx
          rcases List.mem_cons.mp hx with h | h
          · subst h
            exact ⟨List.mem_cons_self _ _, ha⟩
          · rcases (ih (a :: seen)).mp h with ⟨h1, h2⟩
            exact ⟨List.mem_cons_of_mem a h1,
              fun hs => h2 (List.mem_cons_of_mem a hs)⟩
        · rintro ⟨hx, hs⟩
          rcases List.mem_cons.mp hx with h | h
          · exact h ▸ List.mem_cons_self _ _
          · by_cases hxa : x = a
            · exact hxa ▸ List.mem_cons_self _ _
            · exact List.mem_cons_of_mem _ ((ih (a :: seen)).mpr
                ⟨h, fun hm => (List.mem_cons.mp hm).elim hxa hs⟩)

theorem mem_firstDedup {α : Type} [DecidableEq α] (x : α) (l : List α) :
    x ∈ firstDedup l ↔ x ∈ l := by
  rw [firstDedup, mem_firstDedupAux]
  simp

theorem nodup_firstDedupAux {α : Type} [DecidableEq α] :
    ∀ (l seen : List α), (firstDedupAux seen l).Nodup := by
  intro l
  induction l with
  | nil => intro seen; simp [firstDedupAux]
  | cons a t ih =>
      intro seen
      rw [firstDedupAux]
      by_cases ha : a ∈ seen
      · rw [if_pos ha]
        exact ih seen
      · rw [if_neg ha]
        refine List.nodup_cons.mpr ⟨?_, ih (a :: seen)⟩
        intro hmem
        exact ((mem_firstDedupAux a t (a :: seen)).mp hmem).2
          (List.mem_cons_self a seen)

theorem nodup_firstDedup {α : Type} [DecidableEq α] (l : List α) :
    (firstDedup l).Nodup :=
  nodup_firstDedupAux l []

theorem length_firstDedup {α : Type} [DecidableEq α] (l : List α) :
    (firstDedup l).length = l.dedup.length := by
  have h1 : (firstDedup l).toFinset = l.toFinset := by
    ext x
    simp [List.mem_toFinset, mem_firstDedup]
  calc (firstDedup l).length = (firstDedup l).toFinset.card :=
        (List.toFinset_card_of_nodup (nodup_firstDedup l)).symm
    _ = l.toFinset.card := by rw [h1]
    _ = l.dedup.length := List.card_toFinset l

/-- The grouped per-payee sum: all amounts of the outflow-type rows
(any amount sign) carrying that payee. -/
def payeeOutflowSum (rows : List Tx) (p : String) : ℚ :=
  (((rows.filter fun x =>
      decide (x.tranType ∈ cash_outflow_trantypes)).filter
    fun x => x.payee == p).map fun x => x.amount).sum

/-- payee_summary of the Overview page: group df_outflow — the rows of
the filtered table whose type is outflow-eligible, with no condition on
the amount sign — by Payee, sum the Amount per payee, then keep only the
payees whose grouped sum is negative. -/
def payee_summary (rows : List Tx) : List (String × ℚ) :=
  ((firstDedup ((rows.filter fun x =>
      decide (x.tranType ∈ cash_outflow_trantypes)).map
    fun x => x.payee)).map fun p => (p, payeeOutflowSum rows p)).filter
    fun pv => decide (pv.2 < 0)

/-- Modelled from the spec words of C3, for comparison: the same
grouping applied only to the Outflow-classified rows (outflow-eligible
type AND negative amount). -/
def payeeOutflowSumSpec (rows : List Tx) (p : String) : ℚ :=
  (((rows.filter fun x =>
      decide (x.tranType ∈ cash_outflow_trantypes ∧ x.amount < 0)).filter
    fun x => x.payee == p).map fun x => x.amount).sum

/-- Modelled from the spec words of C3, for comparison. -/
def payee_summarySpec (rows : List Tx) : List (String × ℚ) :=
  ((firstDedup ((rows.filter fun x =>
      decide (x.tranType ∈ cash_outflow_trantypes ∧ x.amount < 0)).map
    fun x => x.payee)).map fun p => (p, payeeOutflowSumSpec rows p)).filter
    fun pv => decide (pv.2 < 0)

/-- A DEBIT expense of payee A. -/
def txA1 : Tx := ⟨⟨2024, 1, 10⟩, "A", "DEBIT", -50⟩

/-- A DEBIT refund of payee A: outflow-eligible type, positive amount,
so it is not Outflow-classified. -/
def txA2 : Tx := ⟨⟨2024, 1, 11⟩, "A", "DEBIT", 30⟩

/-- Counterexample to C3: the refund row is not Outflow-classified, yet
it changes payee A's grouped sum from -50 to -20, so transactions not
classified as Outflow do contribute to a payee's sum. -/
theorem c3_counterexample :
    payee_summary [txA1, txA2] = [("A", -20)]
    ∧ payee_summarySpec [txA1, txA2] = [("A", -50)]
    ∧ payee_summary [txA1, txA2] ≠ payee_summarySpec [txA1, txA2] := by
  have h1 : payee_summary [txA1, txA2] = [("A", -20)] := by
    simp [payee_summary, payeeOutflowSum, firstDedup, firstDedupAux,
      txA1, txA2, cash_outflow_trantypes]
    norm_num
  have h2 : payee_summarySpec [txA1, txA2] = [("A", -50)] := by
    simp [payee_summarySpec, payeeOutflowSumSpec, firstDedup, firstDedupAux,
      txA1, txA2, cash_outflow_trantypes]
  refine ⟨h1, h2, ?_⟩
  rw [h1, h2]
  simp

/-- Claim C3 as amended: the per-payee breakdown groups the rows whose
type is outflow-eligible regardless of amount sign (so positive-amount
rows of an eligible type do contribute), sums their amounts per payee,
and keeps exactly the payees whose grouped sum is negative; rows whose
type is not outflow-eligible contribute nothing. -/
theorem c3_payee_summary (rows : List Tx) (t : Tx) :
    (∀ p v, (p, v) ∈ payee_summary rows ↔
      (∃ x ∈ rows, x.tranType ∈ cash_outflow_trantypes ∧ x.payee = p)
      ∧ v = payeeOutflowSum rows p ∧ v < 0)
    ∧ (t.tranType ∉ cash_outflow_trantypes →
        payee_summary (t :: rows) = payee_summary rows) := by
  constructor
  · intro p v
    constructor
    · intro h
      have hneg := List.of_mem_filter h
      have h2 := List.mem_of_mem_filter h
      rcases List.mem_map.mp h2 with ⟨q, hq, heq⟩
      rcases (Prod.mk.injEq _ _ _ _).mp heq with ⟨rfl, rfl⟩
      refine ⟨?_, rfl, by simpa using hneg⟩
      rcases List.mem_map.mp ((mem_firstDedup _ _).mp hq) with ⟨x, hx, hpx⟩
      exact ⟨x, List.mem_of_mem_filter hx,
        by simpa using List.of_mem_filter hx, hpx⟩
    · rintro ⟨⟨x, hx, hxt, hxp⟩, rfl, hneg⟩
      refine List.mem_filter.mpr ⟨?_, by simpa using hneg⟩
      refine List.mem_map.mpr ⟨p, ?_, rfl⟩
      refine (mem_firstDedup _ _).mpr ?_
      exact List.mem_map.mpr
        ⟨x, List.mem_filter.mpr ⟨hx, by simpa using hxt⟩, hxp⟩
  · intro h
    have hd : decide (t.tranType ∈ cash_outflow_trantypes) = false :=
      decide_eq_false h
    unfold payee_summary payeeOutflowSum
    simp only [List.filter_cons, hd, Bool.false_eq_true, if_false]

/-- Witness for the amended C3: on the two-row example, the pair
(A, -20) is in the breakdown because payee A has an outflow-type row and
a negative grouped sum, and prepending an ineligible CREDIT row changes
nothing. -/
theorem c3_payee_summary_witness :
    ("A", (-20 : ℚ)) ∈ payee_summary [txA1, txA2]
    ∧ payee_summary [⟨⟨2024, 1, 12⟩, "A", "CREDIT", 30⟩, txA1, txA2] =
        payee_summary [txA1, txA2] := by
  constructor
  · refine ((c3_payee_summary [txA1, txA2] txA1).1 "A" (-20)).mpr
      ⟨⟨txA1, List.mem_cons_self _ _, by decide, rfl⟩, ?_, by norm_num⟩
    simp [payeeOutflowSum, txA1, txA2, cash_outflow_trantypes]
    norm_num
  · exact (c3_payee_summary [txA1, txA2]
      ⟨⟨2024, 1, 12⟩, "A", "CREDIT", 30⟩).2 (by decide)

/-- Modelled from the spec words of C5, for comparison: per month, the
sum of the magnitudes of the Outflow-classified rows (outflow-eligible
type AND negative amount). -/
def monthly_spendingSpec (rows : List CTx) : List (String × ℚ) :=
  (month_order.filter fun mo =>
      (rows.filter fun t =>
        decide (t.tranType ∈ cash_outflow_trantypes ∧ t.amount < 0)).any
        fun t => month_nameC t.date == mo).map
    fun mo => (mo,
      (((rows.filter fun t =>
          decide (t.tranType ∈ cash_outflow_trantypes ∧ t.amount < 0)).filter
        fun t => month_nameC t.date == mo).map fun t => |t.amount|).sum)

/-- A January DEBIT expense row of the coercing path. -/
def ctxJanNeg : CTx := ⟨some ⟨2024, 1, 10⟩, "A", "DEBIT", -50⟩

/-- A January DEBIT refund row: outflow-eligible type, positive amount,
so not Outflow-classified. -/
def ctxJanPos : CTx := ⟨some ⟨2024, 1, 11⟩, "A", "DEBIT", 30⟩

/-- Counterexample to C5: with a January expense of -50 and a January
refund of +30 on an outflow-eligible type, the code buckets January at
the absolute value of the signed sum over all outflow-type rows,
abs(-50 + 30) = 20, while the claim (sum of magnitudes of the
Outflow-classified rows only) gives 50. -/
theorem c5_counterexample :
    monthly_spending [ctxJanNeg, ctxJanPos] = [("January", 20)]
    ∧ monthly_spendingSpec [ctxJanNeg, ctxJanPos] = [("January", 50)]
    ∧ monthly_spending [ctxJanNeg, ctxJanPos] ≠
        monthly_spendingSpec [ctxJanNeg, ctxJanPos] := by
  have h1 : monthly_spending [ctxJanNeg, ctxJanPos] = [("January", 20)] := by
    simp [monthly_spending, df_outflowC, month_nameC, month_order,
      ctxJanNeg, ctxJanPos, cash_outflow_trantypes]
    have e : ((-50 : ℚ)) + 30 = -20 := by norm_num
    rw [e, abs_neg, abs_of_nonneg (by norm_num : (0 : ℚ) ≤ 20)]
  have h2 : monthly_spendingSpec [ctxJanNeg, ctxJanPos] =
      [("January", 50)] := by
    simp [monthly_spendingSpec, month_nameC, month_order,
      ctxJanNeg, ctxJanPos, cash_outflow_trantypes]
  refine ⟨h1, h2, ?_⟩
  rw [h1, h2]
  simp

/-- Claim C5 as amended: the monthly and weekday buckets are built from
the rows of the filtered table whose type is outflow-eligible regardless
of amount sign, each bucket holding the absolute value of the signed sum
of those amounts (not the sum of the magnitudes of the
Outflow-classified rows); the buckets follow the canonical calendar
order (January to December, Monday to Sunday) and months or weekdays
with no outflow-type data are absent rather than zero-filled; rows whose
type is not outflow-eligible contribute nothing. -/
theorem c5_month_weekday_totals (rows : List CTx) (t : CTx) :
    ((monthly_spending rows).map Prod.fst =
      month_order.filter fun mo =>
        (df_outflowC rows).any fun x => month_nameC x.date == mo)
    ∧ ((weekly_spending rows).map Prod.fst =
      days_order.filter fun dn =>
        (df_outflowC rows).any fun x => day_nameC x.date == dn)
    ∧ (∀ mo v, (mo, v) ∈ monthly_spending rows →
        v = |(((df_outflowC rows).filter fun x =>
            month_nameC x.date == mo).map fun x => x.amount).sum|)
    ∧ (∀ dn v, (dn, v) ∈ weekly_spending rows →
        v = |(((df_outflowC rows).filter fun x =>
            day_nameC x.date == dn).map fun x => x.amount).sum|)
    ∧ (t.tranType ∉ cash_outflow_trantypes →
        monthly_spending (t :: rows) = monthly_spending rows
        ∧ weekly_spending (t :: rows) = weekly_spending rows) := by
  refine ⟨?_, ?_, ?_, ?_, ?_⟩
  · rw [monthly_spending, List.map_map]
    exact List.map_id _
  · rw [weekly_spending, List.map_map]
    exact List.map_id _
  · intro mo v hmem
    rcases List.mem_map.mp hmem with ⟨q, _, heq⟩
    rcases (Prod.mk.injEq _ _ _ _).mp heq with ⟨rfl, rfl⟩
    rfl
  · intro dn v hmem
    rcases List.mem_map.mp hmem with ⟨q, _, heq⟩
    rcases (Prod.mk.injEq _ _ _ _).mp heq with ⟨rfl, rfl⟩
    rfl
  · intro h
    have hd : decide (t.tranType ∈ cash_outflow_trantypes) = false :=
      decide_eq_false h
    unfold monthly_spending weekly_spending df_outflowC
    simp only [List.filter_cons, hd, Bool.false_eq_true, if_false]
    exact ⟨by trivial, by trivial⟩

/-- Witness for the amended C5: on the two-row January example the only
bucket is January, its value is the absolute value of the signed sum,
and prepending an ineligible CREDIT row changes nothing. -/
theorem c5_month_weekday_totals_witness :
    (monthly_spending [ctxJanNeg, ctxJanPos]).map Prod.fst = ["January"]
    ∧ monthly_spending (⟨some ⟨2024, 1, 12⟩, "A", "CREDIT", 30⟩ ::
        [ctxJanNeg, ctxJanPos]) = monthly_spending [ctxJanNeg, ctxJanPos] := by
  constructor
  · rw [(c5_month_weekday_totals [ctxJanNeg, ctxJanPos] ctxJanNeg).1]
    simp [df_outflowC, month_nameC, month_order, ctxJanNeg, ctxJanPos,
      cash_outflow_trantypes]
  · exact ((c5_month_weekday_totals [ctxJanNeg, ctxJanPos]
      ⟨some ⟨2024, 1, 12⟩, "A", "CREDIT", 30⟩).2.2.2.2 (by decide)).1

/-- The distinct dates of the filtered table (drop_duplicates keeps the
first occurrence). -/
def distinctDates (rows : List Tx) : List CalDate :=
  firstDedup (rows.map fun t => t.date)

/-- Per-date expense value of the Overview chart: the grouped sum of the
outflow-type rows on that date, with the absolute value applied to the
grouped sum; a date carrying no outflow-type row is left missing by the
left merge and set to 0 by fillna, which coincides with the absolute
value of the empty sum. -/
def dailyExpense (rows : List Tx) (d : CalDate) : ℚ :=
  |((rows.filter fun t =>
      decide (t.tranType ∈ cash_outflow_trantypes)
        && decide (t.date = d)).map fun t => t.amount).sum|

/-- Per-date income value (no absolute value is applied to income). -/
def dailyIncome (rows : List Tx) (d : CalDate) : ℚ :=
  ((rows.filter fun t =>
      decide (t.tranType ∈ cash_inflow_trantypes)
        && decide (t.date = d)).map fun t => t.amount).sum

/-- rolling(window w, min_periods 1).mean(): entry i is the mean of the
trailing min(i + 1, w) raw values (truncated subtraction makes the
window start at max(0, i + 1 - w), so the first w - 1 entries average
over fewer than w samples instead of being gaps). -/
def rollingMean (w : Nat) (xs : List ℚ) : List ℚ :=
  (List.range xs.length).map fun i =>
    let win := (xs.take (i + 1)).drop (i + 1 - w)
    win.sum / win.length

/-- cash_flow_data: one row per distinct date of the filtered table,
carrying the smoothed daily expense and income columns (window 5,
min_periods 1). -/
def cash_flow_data (rows : List Tx) : List (CalDate × ℚ × ℚ) :=
  (distinctDates rows).zip
    ((rollingMean 5 ((distinctDates rows).map (dailyExpense rows))).zip
      (rollingMean 5 ((distinctDates rows).map (dailyIncome rows))))

theorem length_rollingMean (w : Nat) (xs : List ℚ) :
    (rollingMean w xs).length = xs.length := by
  simp [rollingMean]

/-- Claim C8: the daily series has exactly one entry per distinct date
of the filtered transactions (no duplicates, no extras), per-date sums
missing from the grouped outflow rows are 0, the smoothing is a trailing
moving average with window 5 and min_periods 1, and smoothing preserves
the series length, so the smoothed series length equals the number of
distinct filtered dates with no gap at the start. -/
theorem c8_daily_series (rows : List Tx) (xs : List ℚ) (i : Nat) :
    (cash_flow_data rows).length =
      ((rows.map fun t => t.date).dedup).length
    ∧ ((cash_flow_data rows).map Prod.fst).Nodup
    ∧ (∀ d, d ∈ (cash_flow_data rows).map Prod.fst ↔
        d ∈ rows.map fun t => t.date)
    ∧ (rollingMean 5 xs).length = xs.length
    ∧ (i < xs.length →
        (rollingMean 5 xs).getD i 0 =
          ((xs.take (i + 1)).drop (i + 1 - 5)).sum /
            ((xs.take (i + 1)).drop (i + 1 - 5)).length)
    ∧ (∀ d, (∀ t ∈ rows, t.tranType ∈ cash_outflow_trantypes →
          t.date ≠ d) → dailyExpense rows d = 0) := by
  have hzlen : ((rollingMean 5 ((distinctDates rows).map
        (dailyExpense rows))).zip (rollingMean 5 ((distinctDates rows).map
        (dailyIncome rows)))).length = (distinctDates rows).length := by
    rw [List.length_zip, length_rollingMean, length_rollingMean,
      List.length_map, List.length_map, min_self]
  refine ⟨?_, ?_, ?_, length_rollingMean 5 xs, ?_, ?_⟩
  · rw [cash_flow_data, List.length_zip, hzlen, min_self]
    exact length_firstDedup _
  · rw [cash_flow_data, List.map_fst_zip _ _ (le_of_eq hzlen.symm)]
    exact nodup_firstDedup _
  · intro d
    rw [cash_flow_data, List.map_fst_zip _ _ (le_of_eq hzlen.symm)]
    exact mem_firstDedup d _
  · intro hi
    simp [rollingMean, List.getD, List.getElem?_map, List.getElem?_range, hi]
  · intro d hd
    have hnil : (rows.filter fun t =>
        decide (t.tranType ∈ cash_outflow_trantypes)
          && decide (t.date = d)) = [] := by
      refine List.filter_eq_nil_iff.mpr fun t ht hb => ?_
      rw [Bool.and_eq_true] at hb
      exact hd t ht (of_decide_eq_true hb.1) (of_decide_eq_true hb.2)
    rw [dailyExpense, hnil]
    simp

/-- Witness for C8: two rows on two distinct dates give a series of
length two, and the second smoothed value of the series 4, 6 averages
both points. -/
theorem c8_daily_series_witness :
    (cash_flow_data [txA1, txA2]).length = 2
    ∧ (rollingMean 5 [4, 6]).getD 1 0 = 5 := by
  constructor
  · rw [(c8_daily_series [txA1, txA2] [] 0).1]
    decide
  · rw [(c8_daily_series [txA1] [4, 6] 1).2.2.2.2.1 (by norm_num)]
    norm_num

end FinTrack
